import Mathlib

/-!
Shallow embedding of the complyctl openscap-plugin result-correlation engine
(`cmd/openscap-plugin/server`, file modelled from `src/unnamed/part_000`) and of
`internal/complytime/plugins.go` (`PluginOptions.ToMap`), together with proofs of
the specified properties.

Conventions of the embedding:
- Go strings are Lean `String`; character-level operations work on `List Char`.
- Go's `(value, error)` return pairs are `_ × Option String` (an error is its
  message string); `Except String _` is used for inner helpers where the Go code
  immediately propagates the error.
- XML nodes are abstracted to the fields the code reads from them: an attribute
  read with `SelectAttr` is a `String` (Go yields `""` when absent), a child
  element read with `SelectElement` is an `Option _`.
- Timestamps (`time.Now()`) and logging are dropped: no claim mentions them.
-/

namespace Complyctl

/-! ### Character-level helpers (Go `strings` / `unicode` behaviour) -/

/-- Go's `unicode.IsSpace`: White_Space code points. -/
def goIsSpace (c : Char) : Bool :=
  c.val = 0x9 || c.val = 0xA || c.val = 0xB || c.val = 0xC || c.val = 0xD ||
  c.val = 0x20 || c.val = 0x85 || c.val = 0xA0 || c.val = 0x1680 ||
  (0x2000 ≤ c.val && c.val ≤ 0x200A) || c.val = 0x2028 || c.val = 0x2029 ||
  c.val = 0x202F || c.val = 0x205F || c.val = 0x3000

/-- Go's `strings.TrimSpace`: drop leading and trailing white space. -/
def goTrimSpace (s : List Char) : List Char :=
  ((s.dropWhile goIsSpace).reverse.dropWhile goIsSpace).reverse

/-- Split a character list at the first character satisfying `p`:
returns `(before, after)` with the splitting character removed, or `none` if no
character satisfies `p`. -/
def splitAtFirst (p : Char → Bool) : List Char → Option (List Char × List Char)
  | [] => none
  | c :: cs =>
    if p c then some ([], cs)
    else (splitAtFirst p cs).map (fun q => (c :: q.1, q.2))

/-! ### The OVAL identifier regular expression

`ovalRegex = ^[^:]*?:[^-]*?-(.*?):.*?$` with Go (leftmost-first, lazy) matching:
- `^[^:]*?:` consumes everything up to and including the first `:` of the string
  (the lazy class cannot expand past a `:`, so no other split is reachable);
- `[^-]*?-` consumes up to and including the first `-` after that colon;
- `(.*?):` captures from there up to the first following `:`; `.` does not match
  `\n` and `$` only matches at end of text, so the part after the hyphen must
  contain a `:` and must contain no newline at all (a newline anywhere after the
  hyphen defeats every reachable split of `(.*?):.*?$`).
-/

/-- Capture group 1 of `regexp.FindStringSubmatch(ovalRegex, s)`, or `none`
when the expression does not match. -/
def ovalRegexCapture (s : List Char) : Option (List Char) :=
  match splitAtFirst (fun c => c = ':') s with
  | none => none
  | some (_, afterColon) =>
    match splitAtFirst (fun c => c = '-') afterColon with
    | none => none
    | some (_, rest) =>
      if rest.contains '\n' then none
      else
        match splitAtFirst (fun c => c = ':') rest with
        | none => none
        | some (cap, _) => some cap

/-- `const ovalCheckType` — the recognized check-system type. -/
def ovalCheckType : String := "http://oval.mitre.org/XMLSchema/oval-definitions-5"

/-! ### Data model: the XML results document, as read by the code -/

/-- The `xccdf-1.2:check-content-ref` element of a check: the code reads its
`name` attribute (`""` when the attribute is absent). -/
structure CheckContentRef where
  name : String
  deriving DecidableEq, Repr

/-- An `xccdf-1.2:check` element of a rule: its `system` attribute and its
optional `xccdf-1.2:check-content-ref` child. -/
structure CheckNode where
  system : String
  contentRef : Option CheckContentRef
  deriving DecidableEq, Repr

/-- A rule definition node: the `xccdf-1.2:check` elements the code selects
from it, in document order. -/
structure RuleNode where
  checks : List CheckNode
  deriving DecidableEq, Repr

/-- A `rule-result` node: its `idref` attribute and the inner text of its
optional `result` child element. -/
structure RuleResultNode where
  idref : String
  resultText : Option String
  deriving DecidableEq, Repr

/-- The parsed results document, abstracted to what `GetResults` reads:
the inner text of the optional `//target` element, the rule catalog, and the
`//rule-result` nodes in document order. -/
structure XmlDoc where
  target : Option String
  rules : List (String × RuleNode)
  ruleResults : List RuleResultNode
  deriving DecidableEq, Repr

/-! ### Data model: the OSCAL policy (`policy.Policy`) -/

/-- `policy.Check`: the code reads only `ID`. -/
structure Check where
  ID : String
  deriving DecidableEq, Repr

/-- One rule set of a `policy.Policy`: the code reads only `Checks`. -/
structure RuleSet where
  Checks : List Check
  deriving DecidableEq, Repr

/-- `policy.Policy` is a slice of rule sets. -/
abbrev Policy := List RuleSet

/-- `policy.Result` constants. -/
inductive PolicyResult where
  | ResultPass
  | ResultFail
  | ResultError
  | ResultInvalid
  deriving DecidableEq, Repr

/-- `policy.Property`. -/
structure Property where
  Name : String
  Value : String
  deriving DecidableEq, Repr

/-- `policy.Subject` (the `EvaluatedOn` timestamp is dropped).
`Type_` models the Go field `Type` (a Lean keyword). -/
structure Subject where
  Title : String
  Type_ : String
  ResourceID : String
  Result : PolicyResult
  Reason : String
  Props : List Property
  deriving DecidableEq, Repr

/-- `policy.Link`. -/
structure Link where
  Href : String
  Description : String
  deriving DecidableEq, Repr

/-- `policy.ObservationByCheck` (the `Collected` timestamp is dropped). -/
structure ObservationByCheck where
  Title : String
  Methods : List String
  CheckID : String
  Subjects : List Subject
  RelevantEvidences : List Link
  deriving DecidableEq, Repr

/-- `policy.PVPResult`: the code only fills `ObservationsByCheck`. -/
structure PVPResult where
  ObservationsByCheck : List ObservationByCheck
  deriving DecidableEq, Repr

/-- `policy.PVPResult{}` — the zero value returned on every error path. -/
def emptyPVPResult : PVPResult := ⟨[]⟩

/-! ### The `checks` set -/

/-- `type checks map[string]struct{}` — a set of check id strings, modelled as
the list of its keys (no duplicates are ever appended). -/
abbrev checks := List String

/-- `newChecks()` — the empty set. -/
def newChecks : checks := []

/-- Insertion `c[k] = struct{}{}` into the key-set model: a no-op when the key
is already present. -/
def checksInsert (c : checks) (k : String) : checks :=
  if c.contains k then c else c ++ [k]

/-- `(c checks) LoadPolicy`: insert every `check.ID` of every rule. -/
def checks.LoadPolicy (c : checks) (oscalPolicy : Policy) : checks :=
  oscalPolicy.foldl (fun acc rule => rule.Checks.foldl (fun acc2 ch => checksInsert acc2 ch.ID) acc) c

/-- `(c checks) Has`: key membership. -/
def checks.Has (c : checks) (check : String) : Bool :=
  c.contains check

/-! ### `parseCheck` and `mapResultStatus` -/

/-- `parseCheck`: trim the `name` attribute of the check-content-ref node, fail
when it is empty, run `ovalRegex`, fail when it does not match (fewer than 2
submatch entries), otherwise return capture group 1. The Go error message uses
`%q`; it is rendered here by surrounding the name with double quotes. -/
def parseCheck (name : String) : Except String String :=
  let ovalCheckName := goTrimSpace name.data
  if ovalCheckName = [] then
    .error "check-content-ref node has no 'name' attribute"
  else
    match ovalRegexCapture ovalCheckName with
    | none => .error ("check id \"" ++ ovalCheckName.asString ++ "\" is in unexpected format")
    | some trimmedCheckName => .ok trimmedCheckName.asString

/-- `mapResultStatus`, as a function of the inner text of the rule-result's
`result` child element (`none` models a missing `result` element). Returns the
Go `(policy.Result, error)` pair. -/
def mapResultStatus (resultText : Option String) : PolicyResult × Option String :=
  match resultText with
  | none => (.ResultInvalid, some "result node has no 'result' attribute")
  | some t =>
    if t = "pass" ∨ t = "fixed" then (.ResultPass, none)
    else if t = "fail" then (.ResultFail, none)
    else if t = "notselected" ∨ t = "notapplicable" then (.ResultError, none)
    else if t = "error" ∨ t = "unknown" then (.ResultError, none)
    else (.ResultInvalid, some ("couldn't match " ++ t))

/-! ### `GetResults` -/

/-- Modelled from the spec: `xccdf.NewRuleHashTable` (Rule Index, §4.4) lives in
the `xccdf` package, whose source is not included; the spec describes it as
"a mapping from rule identifier → RuleDefinition" built once from the parsed
document, so the document model carries that mapping directly and the builder
projects it. -/
def NewRuleHashTable (xmlnode : XmlDoc) : List (String × RuleNode) :=
  xmlnode.rules

/-- The inner loop of `GetResults` over `rule.SelectElements("//xccdf-1.2:check")`:
`ovalRefEl` is the `check-content-ref` child of the first check whose `system`
attribute equals `ovalCheckType` (the loop breaks there, whether or not that
check has a `check-content-ref` child); `none` when no check matches. -/
def findOvalRef : List CheckNode → Option CheckContentRef
  | [] => none
  | check :: rest =>
    if check.system = ovalCheckType then check.contentRef
    else findOvalRef rest

/-- The observation literal built for a matched rule-result (timestamps
dropped). `rawResult` is the inner text of the rule-result's `result` element,
re-read for the `Reason` string. -/
def mkObservation (ruleIDRef ovalCheck target arf rawResult : String)
    (mappedResult : PolicyResult) : ObservationByCheck :=
  { Title := ruleIDRef
    Methods := ["AUTOMATED"]
    CheckID := ovalCheck
    Subjects := [{
      Title := "Host " ++ target
      Type_ := "inventory-item"
      ResourceID := target
      Result := mappedResult
      Reason := "openscap rule-result is " ++ rawResult
      Props := [{ Name := "hostname", Value := target }] }]
    RelevantEvidences := [{ Href := "file://" ++ arf, Description := "ARF_FILE" }] }

/-- The `for i := range results` loop of `GetResults`: walk the `//rule-result`
nodes in document order, skip a result whose rule is absent from the table or
has no recognized-type check reference, abort on a `parseCheck` or
`mapResultStatus` error, and append an observation when the normalized check id
is in the policy check set. -/
def correlateResults (policyChecks : checks) (ruleTable : List (String × RuleNode))
    (target arf : String) : List RuleResultNode → Except String (List ObservationByCheck)
  | [] => .ok []
  | result :: rest =>
    match ruleTable.lookup result.idref with
    | none => correlateResults policyChecks ruleTable target arf rest
    | some rule =>
      match findOvalRef rule.checks with
      | none => correlateResults policyChecks ruleTable target arf rest
      | some ovalRefEl =>
        match parseCheck ovalRefEl.name with
        | .error e => .error e
        | .ok ovalCheck =>
          if checks.Has policyChecks ovalCheck then
            match mapResultStatus result.resultText with
            | (_, some e) => .error e
            | (mappedResult, none) =>
              match correlateResults policyChecks ruleTable target arf rest with
              | .error e => .error e
              | .ok obs =>
                .ok (mkObservation result.idref ovalCheck target arf
                      (result.resultText.getD "") mappedResult :: obs)
          else correlateResults policyChecks ruleTable target arf rest

/-- `GetResults`, returning the Go `(policy.PVPResult, error)` pair. The
effectful prologue is abstracted into parameters, in the order the code runs it:
`scanResult` is the outcome of `scan.ScanSystem` (repository code outside the
modelled sources; the spec treats the scan as an external, separately performed
operation whose failure aborts the evaluation), `fileOpen` the outcome of
`os.Open` on the ARF file, and `parsed` the outcome of `utils.ParseContent`.
`arf` is `s.Config.Files.ARF`, used for the evidence link. -/
def GetResults (scanResult : Except String Unit) (fileOpen : Except String Unit)
    (parsed : Except String XmlDoc) (oscalPolicy : Policy) (arf : String) :
    PVPResult × Option String :=
  match scanResult with
  | .error e => (emptyPVPResult, some e)
  | .ok _ =>
    let policyChecks := checks.LoadPolicy newChecks oscalPolicy
    match fileOpen with
    | .error e => (emptyPVPResult, some e)
    | .ok _ =>
      match parsed with
      | .error e => (emptyPVPResult, some e)
      | .ok xmlnode =>
        match xmlnode.target with
        | none => (emptyPVPResult, some "result has no 'target' attribute")
        | some target =>
          let ruleTable := NewRuleHashTable xmlnode
          match correlateResults policyChecks ruleTable target arf xmlnode.ruleResults with
          | .error e => (emptyPVPResult, some e)
          | .ok obs => ({ ObservationsByCheck := obs }, none)

/-! ### `internal/complytime/plugins.go`: `PluginOptions.ToMap` -/

/-- `complytime.PluginOptions`. -/
structure PluginOptions where
  Workspace : String
  Profile : String
  UserConfigRoot : String
  deriving DecidableEq, Repr

/-- `plugin.ConfigurationOption` as read by `ToMap`: `Name`, the optional
`Default` (a `*string` in Go), and `Required`. -/
structure ConfigOption where
  Name : String
  Default : Option String
  Required : Bool
  deriving DecidableEq, Repr

/-- `plugin.Manifest` as read by `ToMap`: its `Configuration` slice. -/
structure Manifest where
  Configuration : List ConfigOption
  deriving DecidableEq, Repr

/-- The fate of the plugin manifest file at `configPath`: missing
(`os.IsNotExist`), an open error, a JSON decode error, or decoded content. -/
inductive ManifestFile where
  | notExist
  | openErr (e : String)
  | parseErr (e : String)
  | content (m : Manifest)
  deriving DecidableEq, Repr

/-- Go map assignment `m[k] = v` on an association-list model of
`map[string]string`: replace the binding when the key exists, append otherwise. -/
def mapSet (m : List (String × String)) (k v : String) : List (String × String) :=
  if m.any (fun p => p.1 = k) then
    m.map (fun p => if p.1 = k then (k, v) else p)
  else m ++ [(k, v)]

/-- The `for _, configOption := range configManifest.Configuration` loop of
`ToMap`: skip options named `workspace` or `profile`; for the rest, a missing
default is fatal when the option is required, otherwise inserts `""`; a present
default is inserted. Returns the Go `(selections, error)` pair. -/
def processOptions (selections : List (String × String)) (configPath : String) :
    List ConfigOption → List (String × String) × Option String
  | [] => (selections, none)
  | configOption :: rest =>
    if configOption.Name = "workspace" ∨ configOption.Name = "profile" then
      processOptions selections configPath rest
    else
      match configOption.Default with
      | none =>
        if configOption.Required then
          (selections, some ("missing default value for required option " ++
            configOption.Name ++ " in " ++ configPath))
        else
          processOptions (mapSet selections configOption.Name "") configPath rest
      | some d => processOptions (mapSet selections configOption.Name d) configPath rest

/-- `PluginOptions.ToMap` (logging dropped; `filepath.Join` rendered with `/`).
`manifestFile` abstracts the open-and-decode of the manifest file under
`UserConfigRoot`; it is irrelevant when `UserConfigRoot` is empty. -/
def PluginOptions.ToMap (p : PluginOptions) (pluginId : String)
    (manifestFile : ManifestFile) : List (String × String) × Option String :=
  let selections := mapSet (mapSet [] "workspace" p.Workspace) "profile" p.Profile
  if p.UserConfigRoot = "" then (selections, none)
  else
    let configPath := p.UserConfigRoot ++ "/c2p-" ++ pluginId ++ "-manifest.json"
    match manifestFile with
    | .notExist => (selections, none)
    | .openErr e => (selections, some ("failed to open plugin config file: " ++ e))
    | .parseErr e => (selections, some ("failed to parse plugin config file: " ++ e))
    | .content configManifest => processOptions selections configPath configManifest.Configuration

/-! ## Claims -/

/-- C2: the Status Mapper maps `pass` and `fixed` to Pass, `fail` to Fail,
`notselected`, `notapplicable`, `error` and `unknown` to Error, each with no
error; any other token yields Invalid together with a non-nil error naming the
unrecognized token. -/
theorem mapResultStatus_total_over_tokens :
    mapResultStatus (some "pass") = (.ResultPass, none) ∧
    mapResultStatus (some "fixed") = (.ResultPass, none) ∧
    mapResultStatus (some "fail") = (.ResultFail, none) ∧
    mapResultStatus (some "notselected") = (.ResultError, none) ∧
    mapResultStatus (some "notapplicable") = (.ResultError, none) ∧
    mapResultStatus (some "error") = (.ResultError, none) ∧
    mapResultStatus (some "unknown") = (.ResultError, none) ∧
    ∀ t : String,
      t ∉ (["pass", "fixed", "fail", "notselected", "notapplicable", "error",
            "unknown"] : List String) →
      mapResultStatus (some t) = (.ResultInvalid, some ("couldn't match " ++ t)) := by
  refine ⟨rfl, rfl, rfl, rfl, rfl, rfl, rfl, ?_⟩
  intro t ht
  simp only [List.mem_cons, List.not_mem_nil, or_false, not_or] at ht
  obtain ⟨h1, h2, h3, h4, h5, h6, h7⟩ := ht
  simp [mapResultStatus, h1, h2, h3, h4, h5, h6, h7]

/-- Witness for C2 at the concrete unrecognized token `"bogus"`. -/
theorem mapResultStatus_total_over_tokens_witness :
    mapResultStatus (some "bogus") = (.ResultInvalid, some ("couldn't match bogus")) :=
  mapResultStatus_total_over_tokens.2.2.2.2.2.2.2 "bogus" (by decide)

/-- C3: when the target element is absent, `GetResults` aborts with the
missing-target error and produces no observations, regardless of the
rule-results the document contains. -/
theorem getResults_missing_target (xmlnode : XmlDoc) (oscalPolicy : Policy)
    (arf : String) (h : xmlnode.target = none) :
    GetResults (.ok ()) (.ok ()) (.ok xmlnode) oscalPolicy arf =
      (emptyPVPResult, some "result has no 'target' attribute") := by
  simp [GetResults, h]

/-- Witness for C3: a document with no target but with rule-results present. -/
theorem getResults_missing_target_witness :
    GetResults (.ok ()) (.ok ())
      (.ok { target := none
             rules := [("rule1", { checks := [] })]
             ruleResults := [{ idref := "rule1", resultText := some "pass" }] })
      [] "arf.xml" =
    (emptyPVPResult, some "result has no 'target' attribute") :=
  getResults_missing_target _ _ _ rfl

/-- C7: for a rule whose declared checks are any non-recognized prelude
followed by a first recognized (OVAL) check `c` and then arbitrary further
checks (possibly more of the recognized type), the relevant check reference is
the one of `c`: the first recognized-type check in document order wins and
checks of other system types are never used. -/
theorem findOvalRef_first_recognized (pre : List CheckNode) (c : CheckNode)
    (post : List CheckNode)
    (hpre : ∀ c' ∈ pre, c'.system ≠ ovalCheckType)
    (hc : c.system = ovalCheckType) :
    findOvalRef (pre ++ c :: post) = c.contentRef := by
  induction pre with
  | nil => simp [findOvalRef, hc]
  | cons a rest ih =>
    have ha : a.system ≠ ovalCheckType := hpre a (by simp)
    simpa [findOvalRef, ha] using ih (fun c' hm => hpre c' (by simp [hm]))

/-- Witness for C7: the second of three checks (non-recognized, recognized,
recognized) supplies the reference. -/
theorem findOvalRef_first_recognized_witness :
    findOvalRef
      [{ system := "other-system", contentRef := some { name := "n1" } },
       { system := ovalCheckType, contentRef := some { name := "n2" } },
       { system := ovalCheckType, contentRef := some { name := "n3" } }] =
    some { name := "n2" } :=
  findOvalRef_first_recognized
    [{ system := "other-system", contentRef := some { name := "n1" } }]
    { system := ovalCheckType, contentRef := some { name := "n2" } }
    [{ system := ovalCheckType, contentRef := some { name := "n3" } }]
    (by decide) rfl

/-- C9: loading the policy `[{checks: [A, B]}, {checks: [B, C]}]` yields a
check set whose membership test is true exactly on `A`, `B`, `C`. -/
theorem loadPolicy_roundtrip :
    ∀ x : String,
      checks.Has
        (checks.LoadPolicy newChecks
          [{ Checks := [{ ID := "A" }, { ID := "B" }] },
           { Checks := [{ ID := "B" }, { ID := "C" }] }]) x =
      (x == "A" || x == "B" || x == "C") := by
  intro x
  have h : checks.LoadPolicy newChecks
      [{ Checks := [{ ID := "A" }, { ID := "B" }] },
       { Checks := [{ ID := "B" }, { ID := "C" }] }] = ["A", "B", "C"] := by rfl
  rw [h]
  cases h1 : x == "A" <;> cases h2 : x == "B" <;> cases h3 : x == "C" <;>
    simp [checks.Has, List.contains, List.elem, h1, h2, h3]

/-- C4: when normalizing the identifier of a rule's relevant recognized-type
check fails, `GetResults` aborts the whole evaluation with that error, for
every policy (hence before and regardless of any membership test against the
policy check set). -/
theorem getResults_parse_error_aborts (oscalPolicy : Policy)
    (arf target idref : String) (rt : List (String × RuleNode)) (rule : RuleNode)
    (ovalRefEl : CheckContentRef) (e : String) (resultText : Option String)
    (rest : List RuleResultNode)
    (hlook : rt.lookup idref = some rule)
    (hfind : findOvalRef rule.checks = some ovalRefEl)
    (hparse : parseCheck ovalRefEl.name = .error e) :
    GetResults (.ok ()) (.ok ())
      (.ok { target := some target, rules := rt,
             ruleResults := { idref := idref, resultText := resultText } :: rest })
      oscalPolicy arf =
    (emptyPVPResult, some e) := by
  simp [GetResults, NewRuleHashTable, correlateResults, hlook, hfind, hparse]

/-- Witness for C4: a malformed identifier (`"nocolon"`) aborts the run even
though the policy check set is empty (so the membership test could never
succeed). -/
theorem getResults_parse_error_aborts_witness :
    GetResults (.ok ()) (.ok ())
      (.ok { target := some "host1",
             rules := [("rule1",
               { checks := [{ system := ovalCheckType,
                              contentRef := some { name := "nocolon" } }] })],
             ruleResults := [{ idref := "rule1", resultText := some "pass" }] })
      [] "arf.xml" =
    (emptyPVPResult, some "check id \"nocolon\" is in unexpected format") :=
  getResults_parse_error_aborts [] "arf.xml" "host1" "rule1" _ _
    { name := "nocolon" } _ (some "pass") [] rfl rfl rfl

/-- C5: whenever `GetResults` returns a non-nil error — from the scan, the file
open, the document parse, a missing target, a malformed check identifier or an
unrecognized outcome token — the result returned alongside it is the empty
`PVPResult`. -/
theorem getResults_error_implies_empty (scanResult fileOpen : Except String Unit)
    (parsed : Except String XmlDoc) (oscalPolicy : Policy) (arf : String)
    (r : PVPResult) (e : String)
    (h : GetResults scanResult fileOpen parsed oscalPolicy arf = (r, some e)) :
    r = emptyPVPResult := by
  cases scanResult with
  | error e1 => simp [GetResults] at h; exact h.1.symm
  | ok u1 =>
    cases fileOpen with
    | error e1 => simp [GetResults] at h; exact h.1.symm
    | ok u2 =>
      cases parsed with
      | error e1 => simp [GetResults] at h; exact h.1.symm
      | ok xmlnode =>
        cases htarget : xmlnode.target with
        | none => simp [GetResults, htarget] at h; exact h.1.symm
        | some target =>
          cases hc : correlateResults (checks.LoadPolicy newChecks oscalPolicy)
              (NewRuleHashTable xmlnode) target arf xmlnode.ruleResults with
          | error e1 => simp [GetResults, htarget, hc] at h; exact h.1.symm
          | ok obs => simp [GetResults, htarget, hc] at h

/-- Witness for C5 at a concrete failing input (scan failure). -/
theorem getResults_error_implies_empty_witness :
    (GetResults (.error "scan failed") (.ok ())
      (.ok { target := some "host1", rules := [], ruleResults := [] }) [] "arf.xml").1 =
    emptyPVPResult :=
  getResults_error_implies_empty (.error "scan failed") (.ok ())
    (.ok { target := some "host1", rules := [], ruleResults := [] }) [] "arf.xml"
    _ "scan failed" rfl

/-- C6: a rule-result whose rule is in the index and whose recognized-type
check normalizes to an id outside the policy check set produces no observation
and no error. -/
theorem getResults_skip_not_in_policy (oscalPolicy : Policy)
    (arf target idref cid : String) (rt : List (String × RuleNode))
    (rule : RuleNode) (ovalRefEl : CheckContentRef) (resultText : Option String)
    (hlook : rt.lookup idref = some rule)
    (hfind : findOvalRef rule.checks = some ovalRefEl)
    (hparse : parseCheck ovalRefEl.name = .ok cid)
    (hhas : checks.Has (checks.LoadPolicy newChecks oscalPolicy) cid = false) :
    GetResults (.ok ()) (.ok ())
      (.ok { target := some target, rules := rt,
             ruleResults := [{ idref := idref, resultText := resultText }] })
      oscalPolicy arf =
    (emptyPVPResult, none) := by
  simp [GetResults, NewRuleHashTable, correlateResults, hlook, hfind, hparse, hhas,
    emptyPVPResult]

/-- Witness for C6, the spec's own example: `"oval:ssg-X:def:1"` normalizes to
`"X"`, the policy set is `{"Y"}`, and the run yields an empty result with no
error. -/
theorem getResults_skip_not_in_policy_witness :
    GetResults (.ok ()) (.ok ())
      (.ok { target := some "host1",
             rules := [("rule1",
               { checks := [{ system := ovalCheckType,
                              contentRef := some { name := "oval:ssg-X:def:1" } }] })],
             ruleResults := [{ idref := "rule1", resultText := some "pass" }] })
      [{ Checks := [{ ID := "Y" }] }] "arf.xml" =
    (emptyPVPResult, none) :=
  getResults_skip_not_in_policy [{ Checks := [{ ID := "Y" }] }] "arf.xml" "host1"
    "rule1" "X" _ _ { name := "oval:ssg-X:def:1" } (some "pass") rfl rfl rfl rfl

/-- `splitAtFirst` finds nothing when no character satisfies the predicate. -/
theorem splitAtFirst_eq_none (p : Char → Bool) (l : List Char)
    (h : ∀ c ∈ l, ¬ p c) : splitAtFirst p l = none := by
  induction l with
  | nil => rfl
  | cons c cs ih =>
    have hc : ¬ p c := h c (by simp)
    simp [splitAtFirst, hc, ih (fun c' hm => h c' (by simp [hm]))]

/-- Trimming only removes characters: members of `goTrimSpace l` are members of
`l`. -/
theorem mem_of_mem_goTrimSpace (c : Char) (l : List Char)
    (h : c ∈ goTrimSpace l) : c ∈ l := by
  unfold goTrimSpace at h
  rw [List.mem_reverse] at h
  have h2 := (List.dropWhile_sublist goIsSpace).mem h
  rw [List.mem_reverse] at h2
  exact (List.dropWhile_sublist goIsSpace).mem h2

/-- C8: `parseCheck` fails exactly on its two documented failure inputs — the
missing-identifier error when the trimmed `name` attribute is empty, the
malformed-identifier error when the trimmed string does not match the OVAL
identifier expression (in particular, for any string with no colon) — and for
every input on which the expression matches it returns the captured short name
with no error. -/
theorem parseCheck_error_conditions :
    (∀ s : String, goTrimSpace s.data = [] →
        parseCheck s = .error "check-content-ref node has no 'name' attribute") ∧
    (∀ s : String, goTrimSpace s.data ≠ [] →
        ovalRegexCapture (goTrimSpace s.data) = none →
        parseCheck s = .error ("check id \"" ++ (goTrimSpace s.data).asString ++
          "\" is in unexpected format")) ∧
    (∀ s : String, (∀ c ∈ s.data, c ≠ ':') → goTrimSpace s.data ≠ [] →
        parseCheck s = .error ("check id \"" ++ (goTrimSpace s.data).asString ++
          "\" is in unexpected format")) ∧
    (∀ (s : String) (cap : List Char),
        ovalRegexCapture (goTrimSpace s.data) = some cap →
        parseCheck s = .ok cap.asString) := by
  refine ⟨?_, ?_, ?_, ?_⟩
  · intro s h
    simp [parseCheck, h]
  · intro s hne hcap
    simp [parseCheck, hne, hcap]
  · intro s hnc hne
    have hcap : ovalRegexCapture (goTrimSpace s.data) = none := by
      have hsplit : splitAtFirst (fun c => c = ':') (goTrimSpace s.data) = none :=
        splitAtFirst_eq_none _ _ (by
          intro c hm
          simp only [decide_eq_true_eq]
          exact hnc c (mem_of_mem_goTrimSpace c s.data hm))
      simp [ovalRegexCapture, hsplit]
    simp [parseCheck, hne, hcap]
  · intro s cap h
    have hne : goTrimSpace s.data ≠ [] := by
      intro h0
      rw [h0] at h
      simp [ovalRegexCapture, splitAtFirst] at h
    simp [parseCheck, hne, h]

/-- Witness for C8: one concrete input per case — whitespace-only, no colon,
and a well-formed identifier. -/
theorem parseCheck_error_conditions_witness :
    parseCheck "   " = .error "check-content-ref node has no 'name' attribute" ∧
    parseCheck "nocolon" = .error "check id \"nocolon\" is in unexpected format" ∧
    parseCheck "a:b-c:d" = .ok "c" :=
  ⟨parseCheck_error_conditions.1 "   " rfl,
   parseCheck_error_conditions.2.2.1 "nocolon" (by decide) (by decide),
   parseCheck_error_conditions.2.2.2 "a:b-c:d" ['c'] rfl⟩

/-- C1 counterexample: on the claimed scenario — target `"host1"`, rule
`"rule1"` with the recognized-type check named
`"oval:ssg-sshd_enabled-1:def:1"`, rule-result `"fail"`, policy check set
`{"sshd_enabled"}` — `GetResults` returns no error but ZERO observations (the
identifier normalizes to `"sshd_enabled-1"`, which is not in the set), so it
does not return one observation with check ID `"sshd_enabled"`. -/
theorem getResults_e2e_claimed_scenario_empty :
    GetResults (.ok ()) (.ok ())
      (.ok { target := some "host1",
             rules := [("rule1",
               { checks := [{ system := ovalCheckType,
                              contentRef := some { name := "oval:ssg-sshd_enabled-1:def:1" } }] })],
             ruleResults := [{ idref := "rule1", resultText := some "fail" }] })
      [{ Checks := [{ ID := "sshd_enabled" }] }] "arf.xml" =
    ({ ObservationsByCheck := [] }, none) := by
  rfl

/-- C1 amended: in the same scenario the check identifier
`"oval:ssg-sshd_enabled-1:def:1"` normalizes to `"sshd_enabled-1"` (the capture
runs from the first hyphen after the first colon to the next colon), and
against the policy check set `{"sshd_enabled-1"}` `GetResults` returns no error
and exactly one observation with check ID `"sshd_enabled-1"`, whose single
subject has result Fail and resource ID `"host1"`, and whose reason string
(`"openscap rule-result is fail"`) contains `"fail"`. -/
theorem getResults_e2e_amended :
    parseCheck "oval:ssg-sshd_enabled-1:def:1" = .ok "sshd_enabled-1" ∧
    GetResults (.ok ()) (.ok ())
      (.ok { target := some "host1",
             rules := [("rule1",
               { checks := [{ system := ovalCheckType,
                              contentRef := some { name := "oval:ssg-sshd_enabled-1:def:1" } }] })],
             ruleResults := [{ idref := "rule1", resultText := some "fail" }] })
      [{ Checks := [{ ID := "sshd_enabled-1" }] }] "arf.xml" =
    ({ ObservationsByCheck := [{
          Title := "rule1",
          Methods := ["AUTOMATED"],
          CheckID := "sshd_enabled-1",
          Subjects := [{
            Title := "Host host1",
            Type_ := "inventory-item",
            ResourceID := "host1",
            Result := .ResultFail,
            Reason := "openscap rule-result is fail",
            Props := [{ Name := "hostname", Value := "host1" }] }],
          RelevantEvidences := [{ Href := "file://arf.xml", Description := "ARF_FILE" }] }] },
     none) := by
  exact ⟨rfl, rfl⟩

/-! ### Association-map lemmas for `ToMap` -/

/-- A lookup skips a leading binding with a different key. -/
theorem lookup_cons_of_ne (a : String × String) (t : List (String × String))
    (k' : String) (h : k' ≠ a.1) : List.lookup k' (a :: t) = List.lookup k' t := by
  obtain ⟨ak, av⟩ := a
  have hbeq : (k' == ak) = false := by
    simpa using h
  simp [List.lookup, hbeq]

/-- Replacing the bindings of key `k` does not change lookups of another key. -/
theorem lookup_map_replace (k v k' : String) (h : k' ≠ k) :
    ∀ t : List (String × String),
      List.lookup k' (t.map (fun p => if p.1 = k then (k, v) else p)) =
      List.lookup k' t := by
  intro t
  induction t with
  | nil => rfl
  | cons a t ih =>
    by_cases ha : a.1 = k
    · rw [List.map_cons, if_pos ha, lookup_cons_of_ne _ _ _ h,
        lookup_cons_of_ne _ _ _ (by rw [ha]; exact h), ih]
    · by_cases ha2 : k' = a.1
      · obtain ⟨ak, av⟩ := a
        subst ha2
        rw [List.map_cons, if_neg ha]
        simp [List.lookup]
      · rw [List.map_cons, if_neg ha, lookup_cons_of_ne _ _ _ ha2,
          lookup_cons_of_ne _ _ _ ha2, ih]

/-- Appending a binding for key `k` does not change lookups of another key. -/
theorem lookup_append_of_ne (k v k' : String) (h : k' ≠ k) :
    ∀ t : List (String × String),
      List.lookup k' (t ++ [(k, v)]) = List.lookup k' t := by
  intro t
  induction t with
  | nil =>
    have hbeq : (k' == k) = false := by simpa using h
    simp [List.lookup, hbeq]
  | cons a t ih =>
    by_cases ha2 : k' = a.1
    · obtain ⟨ak, av⟩ := a
      subst ha2
      simp_all [List.lookup]
    · rw [List.cons_append, lookup_cons_of_ne _ _ _ ha2,
        lookup_cons_of_ne _ _ _ ha2, ih]

/-- A `mapSet` under a different key does not change a lookup. -/
theorem lookup_mapSet_ne (m : List (String × String)) (k v k' : String)
    (h : k' ≠ k) : (mapSet m k v).lookup k' = m.lookup k' := by
  unfold mapSet
  by_cases hm : m.any (fun p => p.1 = k)
  · rw [if_pos hm]
    exact lookup_map_replace k v k' h m
  · rw [if_neg hm]
    exact lookup_append_of_ne k v k' h m

/-- The manifest-option loop never changes the bindings of a key named
`workspace` or `profile`. -/
theorem processOptions_preserves (key : String)
    (hkey : key = "workspace" ∨ key = "profile") :
    ∀ (opts : List ConfigOption) (sel : List (String × String)) (cfgPath : String),
      ((processOptions sel cfgPath opts).1).lookup key = sel.lookup key := by
  intro opts
  induction opts with
  | nil => intro sel cfgPath; rfl
  | cons o rest ih =>
    intro sel cfgPath
    by_cases hskip : o.Name = "workspace" ∨ o.Name = "profile"
    · simp only [processOptions]
      rw [if_pos hskip]
      exact ih sel cfgPath
    · have honame : key ≠ o.Name := fun hko =>
        hskip (hkey.imp (fun hw => hko ▸ hw) (fun hp => hko ▸ hp))
      simp only [processOptions]
      rw [if_neg hskip]
      cases hdef : o.Default with
      | none =>
        cases hreq : o.Required with
        | true => rfl
        | false =>
          show List.lookup key (processOptions (mapSet sel o.Name "") cfgPath rest).1 =
            List.lookup key sel
          rw [ih, lookup_mapSet_ne _ _ _ _ honame]
      | some d =>
        show List.lookup key (processOptions (mapSet sel o.Name d) cfgPath rest).1 =
          List.lookup key sel
        rw [ih, lookup_mapSet_ne _ _ _ _ honame]

/-- C10: for every plugin id and every manifest-file content, the selections
map returned by `PluginOptions.ToMap` maps `"workspace"` to the `Workspace`
field and `"profile"` to the `Profile` field of the receiver; and the
manifest-option loop skips configuration options named `"workspace"` or
`"profile"`, so a plugin manifest can never override those two entries. -/
theorem toMap_workspace_profile_fixed :
    (∀ (p : PluginOptions) (pluginId : String) (manifestFile : ManifestFile),
        ((PluginOptions.ToMap p pluginId manifestFile).1).lookup "workspace" =
          some p.Workspace ∧
        ((PluginOptions.ToMap p pluginId manifestFile).1).lookup "profile" =
          some p.Profile) ∧
    (∀ (selections : List (String × String)) (configPath : String)
        (o : ConfigOption) (rest : List ConfigOption),
        o.Name = "workspace" ∨ o.Name = "profile" →
        processOptions selections configPath (o :: rest) =
          processOptions selections configPath rest) := by
  constructor
  · intro p pluginId manifestFile
    have hbase : ∀ key : String, key = "workspace" ∨ key = "profile" →
        (mapSet (mapSet [] "workspace" p.Workspace) "profile" p.Profile).lookup key =
        (if key = "workspace" then some p.Workspace else some p.Profile) := by
      intro key hkey
      rcases hkey with h | h <;> subst h <;> rfl
    unfold PluginOptions.ToMap
    by_cases hroot : p.UserConfigRoot = ""
    · rw [if_pos hroot]
      exact ⟨by simpa using hbase "workspace" (Or.inl rfl),
             by simpa using hbase "profile" (Or.inr rfl)⟩
    · rw [if_neg hroot]
      cases manifestFile with
      | notExist =>
        exact ⟨by simpa using hbase "workspace" (Or.inl rfl),
               by simpa using hbase "profile" (Or.inr rfl)⟩
      | openErr e =>
        exact ⟨by simpa using hbase "workspace" (Or.inl rfl),
               by simpa using hbase "profile" (Or.inr rfl)⟩
      | parseErr e =>
        exact ⟨by simpa using hbase "workspace" (Or.inl rfl),
               by simpa using hbase "profile" (Or.inr rfl)⟩
      | content configManifest =>
        constructor
        · rw [processOptions_preserves "workspace" (Or.inl rfl)]
          simpa using hbase "workspace" (Or.inl rfl)
        · rw [processOptions_preserves "profile" (Or.inr rfl)]
          simpa using hbase "profile" (Or.inr rfl)
  · intro selections configPath o rest hname
    simp only [processOptions]
    rw [if_pos hname]

/-- Witness for C10: a manifest that tries to override both entries (and adds
one of its own) leaves `workspace` and `profile` bound to the receiver's
fields; processing an option named `"workspace"` is a no-op. -/
theorem toMap_workspace_profile_fixed_witness :
    ((PluginOptions.ToMap { Workspace := "ws", Profile := "prof", UserConfigRoot := "/etc/c2p" }
        "myplugin"
        (.content { Configuration := [
            { Name := "workspace", Default := some "evil", Required := false },
            { Name := "profile", Default := some "evil", Required := false },
            { Name := "extra", Default := some "v", Required := false }] })).1).lookup
      "workspace" = some "ws" ∧
    ((PluginOptions.ToMap { Workspace := "ws", Profile := "prof", UserConfigRoot := "/etc/c2p" }
        "myplugin"
        (.content { Configuration := [
            { Name := "workspace", Default := some "evil", Required := false },
            { Name := "profile", Default := some "evil", Required := false },
            { Name := "extra", Default := some "v", Required := false }] })).1).lookup
      "profile" = some "prof" ∧
    processOptions [] "cfg"
      [{ Name := "workspace", Default := some "evil", Required := false }] =
      processOptions [] "cfg" [] :=
  ⟨(toMap_workspace_profile_fixed.1 _ "myplugin" _).1,
   (toMap_workspace_profile_fixed.1 _ "myplugin" _).2,
   toMap_workspace_profile_fixed.2 [] "cfg"
     { Name := "workspace", Default := some "evil", Required := false } [] (Or.inl rfl)⟩

end Complyctl
